import Mathlib

/-!
Shallow embedding of `core/src/avm2/function.rs` (AVM2 executables) from the
Ruffle emulator: the `Executable` tagged union, its constructor `from_method`,
the invocation entry point `exec`, the `bound_superclass` accessor, and the
diagnostic `full_name` resolver.

Modelling conventions:
* `Gc<T>` pointer identity (`Gc::ptr_eq`) is modelled by a numeric `id` field
  carried by each shared method record.
* External collaborators whose code lives outside this file's sources
  (`Activation::from_builtin`, `Activation::from_method`,
  `Activation::resolve_parameters`, `Activation::run_actions`, and the host
  routines behind native function pointers) are parametrised by a `Host`
  structure of oracle functions, so theorems quantify over every possible
  behaviour of those collaborators.
* The Call-Stack Ledger (`avm2.push_call` / `avm2.pop_call`) is an explicit
  list threaded through `exec`; collaborators receive the ledger and return an
  updated one, so nested recursive calls can be modelled.
* Rust panics (`unwrap`) are modelled by `Option`: a `none` result of
  `full_name` means the source panics.
* `exec` additionally returns a ghost list of `Event`s recording, in order,
  the per-call operations the source performs (activation construction,
  ledger push/pop, arity failure, invocation of the callee).  The events are
  instrumentation only; they do not influence the computed result.
-/

namespace RuffleAvm2

/-- AVM2 values (`Value<'gc>`).  The invocation engine never inspects value
structure; a small concrete universe suffices. -/
inductive Value where
  | undefined : Value
  | num : Int → Value
  | str : String → Value
  | obj : Nat → Value
deriving DecidableEq, Repr

/-- A receiver object (`Object<'gc>`), identified by GC identity. -/
structure Obj where
  id : Nat
deriving DecidableEq, Repr

/-- Errors (`Error`).  In the source, arity errors are built from a formatted
`String` via `.into()`; we keep the message. -/
abbrev Err := String

/-- One entry of a declared parameter signature (`ParamConfig`): a name, a
declared type, and an optional default value. -/
structure Param where
  name : String
  paramType : String
  defaultValue : Option Value
deriving DecidableEq, Repr

/-- A captured lexical scope chain (`ScopeChain<'gc>`): opaque to the
invocation engine, modelled as a list of frame identifiers. -/
abbrev ScopeChain := List Nat

/-- A decoded bytecode method record (`Gc<'gc, BytecodeMethod<'gc>>`).
`id` models the `Gc` allocation identity used by `Gc::ptr_eq`;
`abc_method` is the method's index in its ABC file. -/
structure BytecodeMethod where
  id : Nat
  abc_method : Nat
  signature : List Param
  is_variadic : Bool
  is_unchecked : Bool
deriving DecidableEq, Repr

/-- A host-implemented method record (`Gc<'gc, NativeMethod<'gc>>`).
`method` is the native function pointer, modelled as an index into the
`Host`'s table of native implementations. -/
structure NativeMethod where
  name : String
  signature : List Param
  is_variadic : Bool
  method : Nat
deriving DecidableEq, Repr

/-- A method descriptor (`Method<'gc>`): either native or bytecode. -/
inductive Method where
  | Native : NativeMethod → Method
  | Bytecode : BytecodeMethod → Method
deriving DecidableEq, Repr

/-- `Method::into_bytecode`.  Modelled from the spec: the method descriptor is
polymorphic over {NativeRoutine, BytecodeRoutine}; converting a native
descriptor to a bytecode record fails (the source's `.unwrap()` on that
failure panics).  The conversion itself lives in `method.rs`, outside the
sources embedded here. -/
def Method.into_bytecode : Method → Option BytecodeMethod
  | .Native _ => none
  | .Bytecode m => some m

/-- A qualified trait name; `full_name` only reads its local name. -/
structure QName where
  local_name : String
deriving DecidableEq, Repr

/-- A trait record of a class trait table.  `as_method` returns the method
descriptor when the trait is a method trait. -/
structure Trait where
  name : QName
  as_method : Option Method
deriving DecidableEq, Repr

/-- The class definition behind `ClassObject::inner_class_definition()`:
a qualified name, the designated class initializer, and the class-side and
instance-side trait tables. -/
structure ClassDef where
  qualified_name : String
  class_init : Method
  class_traits : List Trait
  instance_traits : List Trait
deriving DecidableEq, Repr

/-- A class object (`ClassObject<'gc>`). -/
structure ClassObject where
  inner_class_definition : ClassDef
deriving DecidableEq, Repr

/-- `BytecodeExecutable<'gc>`: a bytecode method plus captured scope, optional
bound receiver and optional bound superclass. -/
structure BytecodeExecutable where
  method : BytecodeMethod
  scope : ScopeChain
  receiver : Option Obj
  bound_superclass : Option ClassObject
deriving DecidableEq, Repr

/-- `NativeExecutable<'gc>`: a native method plus captured scope, optional
bound receiver and optional bound superclass. -/
structure NativeExecutable where
  method : NativeMethod
  scope : ScopeChain
  bound_receiver : Option Obj
  bound_superclass : Option ClassObject
deriving DecidableEq, Repr

/-- `Executable<'gc>`: code defined in the host binary (`Native`) or in a
loaded ABC file (`Action`). -/
inductive Executable where
  | Native : NativeExecutable → Executable
  | Action : BytecodeExecutable → Executable
deriving DecidableEq, Repr

/-- `Executable::from_method`: convert a method into an executable.  Pure data
assembly, matching on the descriptor variant. -/
def Executable.from_method (method : Method) (scope : ScopeChain)
    (receiver : Option Obj) (superclass : Option ClassObject) : Executable :=
  match method with
  | .Native m =>
      .Native { method := m, scope := scope, bound_receiver := receiver,
                bound_superclass := superclass }
  | .Bytecode m =>
      .Action { method := m, scope := scope, receiver := receiver,
                bound_superclass := superclass }

/-- `Executable::bound_superclass`: the bound superclass, regardless of
variant. -/
def Executable.bound_superclass : Executable → Option ClassObject
  | .Native e => e.bound_superclass
  | .Action e => e.bound_superclass

/-- The executable's bound receiver: the `bound_receiver` field of a native
executable, the `receiver` field of a bytecode one. -/
def Executable.bound_receiver : Executable → Option Obj
  | .Native e => e.bound_receiver
  | .Action e => e.receiver

/-- A lightweight per-executable summary stored on the Call-Stack Ledger
(the source pushes `self.clone()`; the claims concern ledger depth and entry
identity, which the summary preserves). -/
inductive ExecTag where
  | native : String → ExecTag
  | action : Nat → ExecTag
deriving DecidableEq, Repr

/-- The ledger entry for an executable. -/
def Executable.tag : Executable → ExecTag
  | .Native e => .native e.method.name
  | .Action e => .action e.method.id

/-- The Call-Stack Ledger (`avm2.call_stack`), most recent call first. -/
abbrev CallStack := List ExecTag

/-- `avm2.push_call`. -/
def push_call (e : Executable) (s : CallStack) : CallStack :=
  e.tag :: s

/-- `avm2.pop_call`. -/
def pop_call (s : CallStack) : CallStack :=
  s.tail

/-- A per-call execution context (`Activation`).  Modelled from the spec:
the Activation carries the resolved receiver, the bound superclass, the
method's scope, and — depending on the constructor — the caller's domain
(builtin calls) or the method record, argument list and callee identity
(bytecode calls).  The constructors live in `activation.rs`, outside the
sources embedded here. -/
structure Activation where
  receiver : Option Obj
  superclass : Option ClassObject
  scope : ScopeChain
  caller_domain : Option Nat := none
  method : Option BytecodeMethod := none
  args : List Value := []
  callee : Option Obj := none
deriving DecidableEq, Repr

/-- Oracles for the external collaborators consumed by `exec`.  Quantifying
theorems over an arbitrary `Host` covers every behaviour of the parameter
coercion subsystem, the bytecode interpreter loop, the host routines behind
native function pointers, and the fallible Activation constructors.
Collaborators that may themselves re-enter `exec` (native routines and the
interpreter loop) receive the current ledger and return an updated one. -/
structure Host where
  from_builtin_err :
    Option Obj → Option ClassObject → ScopeChain → Nat → Option Err
  from_method_err :
    BytecodeMethod → ScopeChain → Option Obj → List Value → Option ClassObject
      → Obj → Option Err
  resolve_parameters : String → List Value → List Param → Except Err (List Value)
  native_impls :
    Nat → Activation → Option Obj → List Value → CallStack
      → Except Err Value × CallStack
  run_actions :
    Activation → BytecodeMethod → CallStack → Except Err Value × CallStack

/-- `Activation::from_builtin`.  Modelled from the spec: builds a fresh
Activation carrying the resolved receiver, the bound superclass, the scope
chain and the caller's execution domain; construction may fail (the oracle
decides), in which case the error propagates. -/
def Activation.from_builtin (host : Host) (receiver : Option Obj)
    (subclass_object : Option ClassObject) (scope : ScopeChain)
    (caller_domain : Nat) : Except Err Activation :=
  match host.from_builtin_err receiver subclass_object scope caller_domain with
  | some e => .error e
  | none =>
      .ok { receiver := receiver, superclass := subclass_object,
            scope := scope, caller_domain := some caller_domain }

/-- `Activation::from_method`.  Modelled from the spec: builds a fresh
Activation from the method record, scope chain, resolved receiver, argument
list, bound superclass and callee identity; construction may fail (the
oracle decides), in which case the error propagates. -/
def Activation.from_method (host : Host) (method : BytecodeMethod)
    (scope : ScopeChain) (receiver : Option Obj) (arguments : List Value)
    (subclass_object : Option ClassObject) (callee : Obj) :
    Except Err Activation :=
  match host.from_method_err method scope receiver arguments subclass_object
      callee with
  | some e => .error e
  | none =>
      .ok { receiver := receiver, superclass := subclass_object,
            scope := scope, method := some method, args := arguments,
            callee := some callee }

/-- Rust `{:?}` (Debug) formatting of a method name string. -/
def rust_debug (s : String) : String :=
  "\"" ++ s ++ "\""

/-- The arity error message built by the source:
`format!("Attempted to call {:?} with {} arguments (more than {} is prohibited)", ...)`. -/
def arity_error_message (name : String) (supplied maximum : Nat) : String :=
  "Attempted to call " ++ rust_debug name ++ " with " ++ toString supplied
    ++ " arguments (more than " ++ toString maximum ++ " is prohibited)"

/-- Ghost instrumentation: the per-call operations `exec` performs, in
order. -/
inductive Event where
  | activationBuilt : Activation → Event
  | arityError : Event
  | pushCall : Event
  | popCall : Event
  | invoked : Option Obj → List Value → Event
deriving DecidableEq, Repr

deriving instance DecidableEq for Except

/-- The result of one `exec` call: the returned value or error, the ledger
after the call, and the ghost event trace of this frame. -/
structure ExecOutcome where
  ret : Except Err Value
  stack : CallStack
  events : List Event
deriving DecidableEq, Repr

/-- `Executable::exec`: execute a method.  Follows the source's control flow
exactly: on the `Native` variant — resolve the receiver, build a builtin
Activation (`?`), check arity (early `return Err`), resolve parameters (`?`),
push the ledger, invoke the host routine, pop the ledger; on the `Action`
variant — truncate arguments when the method is unchecked, non-variadic and
over-supplied, resolve the receiver, build a method Activation (`?`), push
the ledger, run the interpreter loop, pop the ledger.  Early `return` / `?`
paths leave the ledger untouched, exactly as in the source. -/
def Executable.exec (host : Host) (self : Executable)
    (unbound_receiver : Option Obj) (arguments : List Value)
    (caller_domain : Nat) (callee : Obj) (stack : CallStack) : ExecOutcome :=
  match self with
  | .Native bm =>
      let receiver := bm.bound_receiver.or unbound_receiver
      let subclass_object := bm.bound_superclass
      match Activation.from_builtin host receiver subclass_object bm.scope
          caller_domain with
      | .error e => { ret := .error e, stack := stack, events := [] }
      | .ok activation =>
          if arguments.length > bm.method.signature.length
              ∧ bm.method.is_variadic = false then
            { ret := .error (arity_error_message bm.method.name
                arguments.length bm.method.signature.length),
              stack := stack,
              events := [.activationBuilt activation, .arityError] }
          else
            match host.resolve_parameters bm.method.name arguments
                bm.method.signature with
            | .error e =>
                { ret := .error e, stack := stack,
                  events := [.activationBuilt activation] }
            | .ok resolved =>
                let stack1 := push_call self stack
                let call := host.native_impls bm.method.method activation
                  receiver resolved stack1
                { ret := call.1, stack := pop_call call.2,
                  events := [.activationBuilt activation, .pushCall,
                    .invoked receiver resolved, .popCall] }
  | .Action bm =>
      let arguments2 :=
        if bm.method.is_unchecked = true
            ∧ arguments.length > bm.method.signature.length
            ∧ bm.method.is_variadic = false then
          arguments.take bm.method.signature.length
        else arguments
      let receiver := bm.receiver.or unbound_receiver
      let subclass_object := bm.bound_superclass
      match Activation.from_method host bm.method bm.scope receiver arguments2
          subclass_object callee with
      | .error e => { ret := .error e, stack := stack, events := [] }
      | .ok activation =>
          let stack1 := push_call self stack
          let run := host.run_actions activation bm.method stack1
          { ret := run.1, stack := pop_call run.2,
            events := [.activationBuilt activation, .pushCall, .popCall] }

/-- The linear identity scan `full_name` performs over one trait table: for
each method trait, convert its descriptor to a bytecode record
(`into_bytecode().unwrap()` — `none` models the panic on a native
descriptor); on `Gc::ptr_eq` identity with the executable's method record,
return the marker (`"$/"` for the class-side table, `"/"` for the
instance-side table) followed by the trait's local name.  The outer `Option`
is the panic; the inner `Option` is match / no match. -/
def scan_method_traits (marker : String) :
    List Trait → BytecodeMethod → Option (Option String)
  | [], _ => some none
  | t :: ts, method =>
      match t.as_method with
      | some m =>
          match m.into_bytecode with
          | none => none
          | some bytecode =>
              if bytecode.id = method.id then
                some (some (marker ++ t.name.local_name))
              else scan_method_traits marker ts method
      | none => scan_method_traits marker ts method

/-- `Executable::full_name`: build the diagnostic name.  If a bound
superclass exists, its qualified class name is pushed first.  Native
executables append the routine's declared name.  Bytecode executables with a
known class compare against the class initializer (`$cinit`), then scan the
class-side table (`$/name`), then the instance-side table (`/name`); with no
known class they build the synthetic `MethodInfo-<id>` name.  Every branch
appends `"()"`.  A `none` result models a panic of the source
(`into_bytecode().unwrap()` on a native descriptor). -/
def Executable.full_name (self : Executable) : Option String :=
  let start : String × Option ClassDef :=
    match self.bound_superclass with
    | some superclass =>
        (superclass.inner_class_definition.qualified_name,
         some superclass.inner_class_definition)
    | none => ("", none)
  let output := start.1
  let class_def := start.2
  match self with
  | .Native e => some (output ++ e.method.name ++ "()")
  | .Action e =>
      match class_def with
      | some cd =>
          match cd.class_init.into_bytecode with
          | none => none
          | some cinit =>
              if cinit.id = e.method.id then
                some (output ++ "$cinit" ++ "()")
              else
                match scan_method_traits "$/" cd.class_traits e.method with
                | none => none
                | some (some found) => some (output ++ found ++ "()")
                | some none =>
                    match scan_method_traits "/" cd.instance_traits e.method with
                    | none => none
                    | some (some found) => some (output ++ found ++ "()")
                    | some none => some (output ++ "()")
      | none =>
          some (output ++ "MethodInfo-" ++ toString e.method.abc_method ++ "()")

/-- Every method trait of the table carries a bytecode descriptor
(`into_bytecode` succeeds on it). -/
def MethodTraitsBytecode (ts : List Trait) : Prop :=
  ∀ t ∈ ts, ∀ m, t.as_method = some m → ∃ b, m.into_bytecode = some b

/-- Every method trait of the table carries a bytecode descriptor whose
identity differs from `method` (the scan passes it without matching and
without panicking). -/
def NoMethodMatch (method : BytecodeMethod) (ts : List Trait) : Prop :=
  ∀ t ∈ ts, ∀ m, t.as_method = some m →
    ∃ b, m.into_bytecode = some b ∧ b.id ≠ method.id

/-- `t` is the first trait of the table whose method descriptor
identity-matches `method`; the traits before it are non-matching bytecode
method traits or non-method traits. -/
def FirstMethodMatch (method : BytecodeMethod) (ts : List Trait)
    (t : Trait) : Prop :=
  ∃ pre post m b, ts = pre ++ t :: post ∧ NoMethodMatch method pre ∧
    t.as_method = some m ∧ m.into_bytecode = some b ∧ b.id = method.id

/-- `true` exactly on the ledger-push event. -/
def isPushEvent : Event → Bool
  | .pushCall => true
  | _ => false

/-- `true` exactly on the ledger-pop event. -/
def isPopEvent : Event → Bool
  | .popCall => true
  | _ => false

/-! ### Concrete fixtures

A host whose collaborators all succeed and leave the ledger unchanged, and a
few small methods, traits and classes, used to evaluate the theorems on
concrete inputs. -/

/-- A host whose oracles always succeed: parameter resolution returns the
arguments unchanged, and the native routines and the interpreter loop return
`undefined` without touching the ledger. -/
def sampleHost : Host where
  from_builtin_err := fun _ _ _ _ => none
  from_method_err := fun _ _ _ _ _ _ => none
  resolve_parameters := fun _ args _ => .ok args
  native_impls := fun _ _ _ _ s => (.ok .undefined, s)
  run_actions := fun _ _ s => (.ok .undefined, s)

/-- A `Number`-typed parameter spec. -/
def numberParam : Param :=
  { name := "a", paramType := "Number", defaultValue := none }

/-- A non-variadic native routine `add(a: Number, b: Number)`. -/
def addMethod : NativeMethod :=
  { name := "add", signature := [numberParam, numberParam],
    is_variadic := false, method := 0 }

/-- A non-variadic native routine `f()` declaring no parameters. -/
def noArgMethod : NativeMethod :=
  { name := "f", signature := [], is_variadic := false, method := 0 }

/-- The unbound native executable for `addMethod`. -/
def addExecutable : Executable :=
  .Native { method := addMethod, scope := [], bound_receiver := none,
            bound_superclass := none }

/-- The `add` executable bound to receiver object 1. -/
def boundAddExecutable : Executable :=
  .Native { method := addMethod, scope := [], bound_receiver := some { id := 1 },
            bound_superclass := none }

/-- A bytecode method record with `Gc` identity 10. -/
def methodFoo : BytecodeMethod :=
  { id := 10, abc_method := 4, signature := [], is_variadic := false,
    is_unchecked := false }

/-- A bytecode class-initializer record with `Gc` identity 99. -/
def cinitMethod : BytecodeMethod :=
  { id := 99, abc_method := 7, signature := [], is_variadic := false,
    is_unchecked := false }

/-- A method trait named `foo` whose descriptor is `methodFoo`. -/
def traitFoo : Trait :=
  { name := { local_name := "foo" }, as_method := some (.Bytecode methodFoo) }

/-- A method trait whose descriptor is native (makes the resolver panic). -/
def nativeTrait : Trait :=
  { name := { local_name := "nat" }, as_method := some (.Native addMethod) }

/-- A class `Example` with instance method trait `foo`. -/
def classFoo : ClassDef :=
  { qualified_name := "Example", class_init := .Bytecode cinitMethod,
    class_traits := [], instance_traits := [traitFoo] }

/-- A class `Example` carrying `foo` on both the class side and the instance
side (exercises class-side precedence). -/
def classStatic : ClassDef :=
  { qualified_name := "Example", class_init := .Bytecode cinitMethod,
    class_traits := [traitFoo], instance_traits := [traitFoo] }

/-- A class `Example` with empty trait tables. -/
def classEmpty : ClassDef :=
  { qualified_name := "Example", class_init := .Bytecode cinitMethod,
    class_traits := [], instance_traits := [] }

/-- A class whose designated class initializer is a native descriptor. -/
def classNativeInit : ClassDef :=
  { qualified_name := "Example", class_init := .Native addMethod,
    class_traits := [], instance_traits := [] }

/-- A class with a native method trait on the class side. -/
def classNativeTrait : ClassDef :=
  { qualified_name := "Example", class_init := .Bytecode cinitMethod,
    class_traits := [nativeTrait], instance_traits := [] }

/-- An "unchecked", non-variadic bytecode method with one parameter. -/
def uncheckedMethod : BytecodeMethod :=
  { id := 3, abc_method := 3, signature := [numberParam],
    is_variadic := false, is_unchecked := true }

/-- A checked (arity-enforced elsewhere), non-variadic bytecode method with
one parameter. -/
def checkedMethod : BytecodeMethod :=
  { id := 4, abc_method := 4, signature := [numberParam],
    is_variadic := false, is_unchecked := false }

/-- Traits satisfying `NoMethodMatch` are passed over by the scan. -/
lemma scan_method_traits_append_of_noMatch (marker : String)
    (method : BytecodeMethod) (pre rest : List Trait)
    (h : NoMethodMatch method pre) :
    scan_method_traits marker (pre ++ rest) method =
      scan_method_traits marker rest method := by
  induction pre with
  | nil => rfl
  | cons t ts ih =>
      have htail : NoMethodMatch method ts := by
        intro t' ht' m hm
        exact h t' (List.mem_cons_of_mem _ ht') m hm
      cases hm : t.as_method with
      | none =>
          simpa [scan_method_traits, hm] using ih htail
      | some m =>
          obtain ⟨b, hb, hne⟩ := h t (List.mem_cons_self _ _) m hm
          simpa [scan_method_traits, hm, hb, hne] using ih htail

/-- A table whose traits all fail to match scans to `some none`. -/
lemma scan_method_traits_eq_of_noMatch (marker : String)
    (method : BytecodeMethod) (ts : List Trait)
    (h : NoMethodMatch method ts) :
    scan_method_traits marker ts method = some none := by
  have := scan_method_traits_append_of_noMatch marker method ts [] h
  simpa using this

/-- The scan returns the marker and trait name of the first identity
match. -/
lemma scan_method_traits_eq_of_firstMatch (marker : String)
    (method : BytecodeMethod) (ts : List Trait) (t : Trait)
    (h : FirstMethodMatch method ts t) :
    scan_method_traits marker ts method =
      some (some (marker ++ t.name.local_name)) := by
  obtain ⟨pre, post, m, b, hts, hpre, hm, hb, hid⟩ := h
  subst hts
  rw [scan_method_traits_append_of_noMatch marker method pre _ hpre]
  simp [scan_method_traits, hm, hb, hid]

/-- The scan panics (models `into_bytecode().unwrap()`) at the first method
trait carrying a native descriptor, when no earlier trait matched. -/
lemma scan_method_traits_eq_none_of_native (marker : String)
    (method : BytecodeMethod) (pre post : List Trait) (t : Trait)
    (m : Method) (hpre : NoMethodMatch method pre)
    (hm : t.as_method = some m) (hb : m.into_bytecode = none) :
    scan_method_traits marker (pre ++ t :: post) method = none := by
  rw [scan_method_traits_append_of_noMatch marker method pre _ hpre]
  simp [scan_method_traits, hm, hb]

/-- A table of bytecode-only method traits never makes the scan panic. -/
lemma scan_method_traits_isSome_of_bytecode (marker : String)
    (method : BytecodeMethod) (ts : List Trait)
    (h : MethodTraitsBytecode ts) :
    ∃ o, scan_method_traits marker ts method = some o := by
  induction ts with
  | nil => exact ⟨none, rfl⟩
  | cons t ts ih =>
      have htail : MethodTraitsBytecode ts := by
        intro t' ht' m hm
        exact h t' (List.mem_cons_of_mem _ ht') m hm
      cases hm : t.as_method with
      | none =>
          simpa [scan_method_traits, hm] using ih htail
      | some m =>
          obtain ⟨b, hb⟩ := h t (List.mem_cons_self _ _) m hm
          by_cases hid : b.id = method.id
          · exact ⟨some (marker ++ t.name.local_name),
              by simp [scan_method_traits, hm, hb, hid]⟩
          · simpa [scan_method_traits, hm, hb, hid] using ih htail

/-- C1: For every call to `Executable::exec`, on both the `Native` and the
`Action` variant and whether the call returns a success value or an error,
the Call-Stack Ledger depth after `exec` returns equals its depth before the
call began, and every `push_call` performed by `exec` is matched by exactly
one `pop_call` — including on the arity-error, activation-construction-error,
coercion-error and interpreter-error exit paths, and under nested recursive
`exec` calls (hypotheses `hnative` / `hrun`: the invoked callee, which may
itself re-enter `exec`, preserves ledger depth). -/
theorem exec_ledger_balanced (host : Host) (self : Executable)
    (unbound_receiver : Option Obj) (arguments : List Value)
    (caller_domain : Nat) (callee : Obj) (stack : CallStack)
    (hnative : ∀ f act r v s,
      ((host.native_impls f act r v s).2).length = s.length)
    (hrun : ∀ act m s, ((host.run_actions act m s).2).length = s.length) :
    ((Executable.exec host self unbound_receiver arguments caller_domain
        callee stack).stack).length = stack.length ∧
    ((Executable.exec host self unbound_receiver arguments caller_domain
        callee stack).events.countP (fun ev => isPushEvent ev) =
      (Executable.exec host self unbound_receiver arguments caller_domain
        callee stack).events.countP (fun ev => isPopEvent ev)) := by
  cases self with
  | Native bm =>
      simp only [Executable.exec]
      cases hfb : Activation.from_builtin host
          (bm.bound_receiver.or unbound_receiver) bm.bound_superclass bm.scope
          caller_domain with
      | error e => simp
      | ok act =>
          by_cases harity : arguments.length > bm.method.signature.length
              ∧ bm.method.is_variadic = false
          · simp [harity, List.countP_cons, isPushEvent, isPopEvent]
          · cases hres : host.resolve_parameters bm.method.name arguments
                bm.method.signature with
            | error e =>
                simp [harity, List.countP_cons, isPushEvent, isPopEvent]
            | ok resolved =>
                have hlen := hnative bm.method.method act
                  (bm.bound_receiver.or unbound_receiver) resolved
                  (push_call (.Native bm) stack)
                simp only [push_call, Executable.tag, List.length_cons]
                  at hlen
                simp [harity, pop_call, push_call, Executable.tag,
                  List.countP_cons, isPushEvent, isPopEvent,
                  List.length_tail]
                omega
  | Action bm =>
      simp only [Executable.exec]
      cases hfm : Activation.from_method host bm.method bm.scope
          (bm.receiver.or unbound_receiver)
          (if bm.method.is_unchecked = true
              ∧ arguments.length > bm.method.signature.length
              ∧ bm.method.is_variadic = false then
            arguments.take bm.method.signature.length
          else arguments) bm.bound_superclass callee with
      | error e => simp
      | ok act =>
          have hlen := hrun act bm.method (push_call (.Action bm) stack)
          simp only [push_call, Executable.tag, List.length_cons] at hlen
          simp [pop_call, push_call, Executable.tag, List.countP_cons,
            isPushEvent, isPopEvent, List.length_tail]
          omega

/-- Witness for C1 at a concrete input: the sample host leaves the ledger
unchanged, and `exec` on the unbound `add` executable returns a ledger of
the starting depth with balanced push/pop events. -/
theorem exec_ledger_balanced_witness :
    ((Executable.exec sampleHost addExecutable none [.num 2, .num 3] 0
        { id := 0 } [.native "caller"]).stack).length =
      [ExecTag.native "caller"].length ∧
    ((Executable.exec sampleHost addExecutable none [.num 2, .num 3] 0
        { id := 0 } [.native "caller"]).events.countP
          (fun ev => isPushEvent ev) =
      (Executable.exec sampleHost addExecutable none [.num 2, .num 3] 0
        { id := 0 } [.native "caller"]).events.countP
          (fun ev => isPopEvent ev)) :=
  exec_ledger_balanced sampleHost addExecutable none [.num 2, .num 3] 0
    { id := 0 } [.native "caller"] (fun _ _ _ _ _ => rfl) (fun _ _ _ => rfl)

/-- The arity error message contains the routine's name. -/
lemma name_infix_arity_error_message (name : String) (supplied maximum : Nat) :
    name.toList <:+: (arity_error_message name supplied maximum).toList := by
  refine ⟨("Attempted to call " ++ "\"").toList,
    ("\"" ++ " with " ++ toString supplied ++ " arguments (more than "
      ++ toString maximum ++ " is prohibited)").toList, ?_⟩
  simp [arity_error_message, rust_debug, String.toList, String.data_append]

/-- The arity error message contains the supplied argument count, as
`"<count> arguments"`. -/
lemma count_infix_arity_error_message (name : String) (supplied maximum : Nat) :
    (toString supplied ++ " arguments").toList <:+:
      (arity_error_message name supplied maximum).toList := by
  have hsplit : (" arguments (more than " : String).data =
      (" arguments" : String).data ++ (" (more than " : String).data := rfl
  refine ⟨("Attempted to call " ++ rust_debug name ++ " with ").toList,
    (" (more than " ++ toString maximum ++ " is prohibited)").toList, ?_⟩
  simp [arity_error_message, rust_debug, String.toList, String.data_append,
    hsplit]

/-- The arity error message contains the declared maximum, as
`"<maximum> is prohibited"`. -/
lemma max_infix_arity_error_message (name : String) (supplied maximum : Nat) :
    (toString maximum ++ " is prohibited").toList <:+:
      (arity_error_message name supplied maximum).toList := by
  have hsplit : (" is prohibited)" : String).data =
      (" is prohibited" : String).data ++ (")" : String).data := rfl
  refine ⟨("Attempted to call " ++ rust_debug name ++ " with "
      ++ toString supplied ++ " arguments (more than ").toList,
    (")" : String).toList, ?_⟩
  simp [arity_error_message, rust_debug, String.toList, String.data_append,
    hsplit]

/-- C2: For every `Native` executable whose method is not variadic and
declares `N` parameters (and whose builtin Activation constructor does not
itself fail), calling `exec` with strictly more than `N` arguments returns an
error whose message names the routine, the supplied argument count and the
declared maximum `N` (in particular, for `N = 2` and 3 arguments it mentions
`"3 arguments"` and `"2 is prohibited"`); calling it with `N` or fewer
arguments does not raise this arity error. -/
theorem exec_native_arity_enforcement (host : Host) (nm : NativeMethod)
    (scope : ScopeChain) (br ur : Option Obj) (bsc : Option ClassObject)
    (caller_domain : Nat) (callee : Obj) (stack : CallStack)
    (arguments : List Value)
    (hvar : nm.is_variadic = false)
    (hfb : host.from_builtin_err (br.or ur) bsc scope caller_domain = none) :
    (arguments.length > nm.signature.length →
      (Executable.exec host
          (.Native { method := nm, scope := scope, bound_receiver := br,
                     bound_superclass := bsc }) ur arguments caller_domain
          callee stack).ret =
        .error (arity_error_message nm.name arguments.length
          nm.signature.length) ∧
      nm.name.toList <:+:
        (arity_error_message nm.name arguments.length
          nm.signature.length).toList ∧
      (toString arguments.length ++ " arguments").toList <:+:
        (arity_error_message nm.name arguments.length
          nm.signature.length).toList ∧
      (toString nm.signature.length ++ " is prohibited").toList <:+:
        (arity_error_message nm.name arguments.length
          nm.signature.length).toList) ∧
    (arguments.length ≤ nm.signature.length →
      Event.arityError ∉
        (Executable.exec host
            (.Native { method := nm, scope := scope, bound_receiver := br,
                       bound_superclass := bsc }) ur arguments caller_domain
            callee stack).events) := by
  constructor
  · intro hgt
    have harity : arguments.length > nm.signature.length
        ∧ nm.is_variadic = false := ⟨hgt, hvar⟩
    refine ⟨?_, name_infix_arity_error_message nm.name arguments.length
        nm.signature.length,
      count_infix_arity_error_message nm.name arguments.length
        nm.signature.length,
      max_infix_arity_error_message nm.name arguments.length
        nm.signature.length⟩
    simp only [Executable.exec]
    simp [Activation.from_builtin, hfb, harity]
  · intro hle
    have harity : ¬(arguments.length > nm.signature.length
        ∧ nm.is_variadic = false) := fun hc => absurd hc.1 (Nat.not_lt.mpr hle)
    simp only [Executable.exec]
    simp only [Activation.from_builtin, hfb]
    cases hres : host.resolve_parameters nm.name arguments nm.signature with
    | error e => simp [harity, hres]
    | ok resolved => simp [harity, hres]

/-- Witness for C2: `add(a: Number, b: Number)` called with `[2, 3, 4]` fails
with the arity error whose message mentions `"3 arguments"` and
`"2 is prohibited"`, and called with `[2, 3]` raises no arity error. -/
theorem exec_native_arity_enforcement_witness :
    (Executable.exec sampleHost
        (.Native { method := addMethod, scope := [], bound_receiver := none,
                   bound_superclass := none }) none [.num 2, .num 3, .num 4] 0
        { id := 0 } []).ret =
      .error (arity_error_message "add" 3 2) ∧
    ("3 arguments" : String).toList <:+:
      (arity_error_message "add" 3 2).toList ∧
    ("2 is prohibited" : String).toList <:+:
      (arity_error_message "add" 3 2).toList ∧
    Event.arityError ∉
      (Executable.exec sampleHost
          (.Native { method := addMethod, scope := [], bound_receiver := none,
                     bound_superclass := none }) none [.num 2, .num 3] 0
          { id := 0 } []).events := by
  have h3 := exec_native_arity_enforcement sampleHost addMethod [] none none
    none 0 { id := 0 } [] [.num 2, .num 3, .num 4] rfl rfl
  have h2 := exec_native_arity_enforcement sampleHost addMethod [] none none
    none 0 { id := 0 } [] [.num 2, .num 3] rfl rfl
  obtain ⟨hret, -, hcount, hmax⟩ := h3.1 (by decide)
  exact ⟨hret, hcount, hmax, h2.2 (by decide)⟩

/-- C3: For every `Action` (bytecode) executable whose method record is
marked unchecked and is not variadic, calling `exec` with more arguments than
the declared signature length does not fail for that reason: the argument
list is silently truncated to the first signature-length arguments before the
Activation is built, and only those truncated arguments are passed to the
call (the whole outcome equals running the interpreter on an Activation
carrying exactly the truncated arguments). -/
theorem exec_action_unchecked_truncates (host : Host) (m : BytecodeMethod)
    (scope : ScopeChain) (br ur : Option Obj) (bsc : Option ClassObject)
    (caller_domain : Nat) (callee : Obj) (stack : CallStack)
    (arguments : List Value) (act : Activation)
    (hu : m.is_unchecked = true) (hv : m.is_variadic = false)
    (hgt : arguments.length > m.signature.length)
    (hact : act = { receiver := br.or ur, superclass := bsc, scope := scope,
                    method := some m,
                    args := arguments.take m.signature.length,
                    callee := some callee })
    (hfm : host.from_method_err m scope (br.or ur)
        (arguments.take m.signature.length) bsc callee = none) :
    Executable.exec host
        (.Action { method := m, scope := scope, receiver := br,
                   bound_superclass := bsc }) ur arguments caller_domain
        callee stack =
      { ret := (host.run_actions act m (ExecTag.action m.id :: stack)).1,
        stack :=
          pop_call (host.run_actions act m (ExecTag.action m.id :: stack)).2,
        events := [Event.activationBuilt act, Event.pushCall,
          Event.popCall] } := by
  subst hact
  have hcond : m.is_unchecked = true
      ∧ arguments.length > m.signature.length
      ∧ m.is_variadic = false := ⟨hu, hgt, hv⟩
  simp only [Executable.exec]
  simp [hcond, Activation.from_method, hfm, push_call, Executable.tag]

/-- Witness for C3: the unchecked one-parameter bytecode routine called with
`["x", "y"]` runs on an Activation carrying only `"x"`. -/
theorem exec_action_unchecked_truncates_witness :
    Executable.exec sampleHost
        (.Action { method := uncheckedMethod, scope := [], receiver := none,
                   bound_superclass := none }) none [.str "x", .str "y"] 0
        { id := 0 } [] =
      { ret := .ok .undefined, stack := [],
        events := [Event.activationBuilt
          { receiver := none, superclass := none, scope := [],
            method := some uncheckedMethod, args := [.str "x"],
            callee := some { id := 0 } }, Event.pushCall, Event.popCall] } := by
  have h := exec_action_unchecked_truncates sampleHost uncheckedMethod []
    none none none 0 { id := 0 } [] [.str "x", .str "y"]
    { receiver := none, superclass := none, scope := [],
      method := some uncheckedMethod, args := [.str "x"],
      callee := some { id := 0 } }
    rfl rfl (by decide) rfl rfl
  exact h

/-- C10: For a bytecode executable whose method record is not marked
unchecked, or is variadic, `exec` performs no arity enforcement at all at
this boundary — it neither raises an arity error nor truncates: the caller's
full argument list, whatever its length relative to the declared signature,
is passed unmodified into the new Activation. -/
theorem exec_action_no_arity_enforcement (host : Host) (m : BytecodeMethod)
    (scope : ScopeChain) (br ur : Option Obj) (bsc : Option ClassObject)
    (caller_domain : Nat) (callee : Obj) (stack : CallStack)
    (arguments : List Value) (act : Activation)
    (hnotrunc : m.is_unchecked = false ∨ m.is_variadic = true)
    (hact : act = { receiver := br.or ur, superclass := bsc, scope := scope,
                    method := some m, args := arguments,
                    callee := some callee })
    (hfm : host.from_method_err m scope (br.or ur) arguments bsc
        callee = none) :
    Executable.exec host
        (.Action { method := m, scope := scope, receiver := br,
                   bound_superclass := bsc }) ur arguments caller_domain
        callee stack =
      { ret := (host.run_actions act m (ExecTag.action m.id :: stack)).1,
        stack :=
          pop_call (host.run_actions act m (ExecTag.action m.id :: stack)).2,
        events := [Event.activationBuilt act, Event.pushCall,
          Event.popCall] } := by
  subst hact
  have hcond : ¬(m.is_unchecked = true
      ∧ arguments.length > m.signature.length
      ∧ m.is_variadic = false) := by
    rcases hnotrunc with h | h
    · exact fun hc => by rw [h] at hc; exact absurd hc.1 (by simp)
    · exact fun hc => by rw [h] at hc; exact absurd hc.2.2 (by simp)
  simp only [Executable.exec]
  simp [hcond, Activation.from_method, hfm, push_call, Executable.tag]

/-- Witness for C10: the checked one-parameter bytecode routine called with
`["x", "y"]` runs on an Activation carrying both arguments, unmodified. -/
theorem exec_action_no_arity_enforcement_witness :
    Executable.exec sampleHost
        (.Action { method := checkedMethod, scope := [], receiver := none,
                   bound_superclass := none }) none [.str "x", .str "y"] 0
        { id := 0 } [] =
      { ret := .ok .undefined, stack := [],
        events := [Event.activationBuilt
          { receiver := none, superclass := none, scope := [],
            method := some checkedMethod, args := [.str "x", .str "y"],
            callee := some { id := 0 } }, Event.pushCall, Event.popCall] } := by
  have h := exec_action_no_arity_enforcement sampleHost checkedMethod []
    none none none 0 { id := 0 } [] [.str "x", .str "y"]
    { receiver := none, superclass := none, scope := [],
      method := some checkedMethod, args := [.str "x", .str "y"],
      callee := some { id := 0 } }
    (Or.inl rfl) rfl rfl
  exact h

/-- C5 counterexample: on the Native path the builtin Activation is
constructed *before* the arity check, so `exec` on a zero-parameter
non-variadic native routine with one argument fails with the arity error
*and* its event trace shows an Activation was built — contradicting the
claim that no Activation has been created when `exec` fails with an arity
error. -/
theorem exec_native_activation_before_arity_counterexample :
    (Executable.exec sampleHost
        (.Native { method := noArgMethod, scope := [], bound_receiver := none,
                   bound_superclass := none }) none [.num 1] 0
        { id := 0 } []).ret =
      .error (arity_error_message "f" 1 0) ∧
    Event.activationBuilt
        { receiver := none, superclass := none, scope := [],
          caller_domain := some 0 } ∈
      (Executable.exec sampleHost
          (.Native { method := noArgMethod, scope := [], bound_receiver := none,
                     bound_superclass := none }) none [.num 1] 0
          { id := 0 } []).events := by
  constructor
  · rfl
  · decide

/-- C5 as amended: on the Native path the arity check runs *after* the
builtin Activation is successfully constructed but before parameter
resolution and before the ledger push; when `exec` fails with the arity
error, exactly one Activation has been built, no ledger push or pop has
happened, no routine was invoked, and the ledger is unchanged. -/
theorem exec_native_arity_check_after_activation (host : Host)
    (nm : NativeMethod) (scope : ScopeChain) (br ur : Option Obj)
    (bsc : Option ClassObject) (caller_domain : Nat) (callee : Obj)
    (stack : CallStack) (arguments : List Value)
    (hvar : nm.is_variadic = false)
    (hgt : arguments.length > nm.signature.length)
    (hfb : host.from_builtin_err (br.or ur) bsc scope caller_domain = none) :
    (Executable.exec host
        (.Native { method := nm, scope := scope, bound_receiver := br,
                   bound_superclass := bsc }) ur arguments caller_domain
        callee stack).ret =
      .error (arity_error_message nm.name arguments.length
        nm.signature.length) ∧
    (Executable.exec host
        (.Native { method := nm, scope := scope, bound_receiver := br,
                   bound_superclass := bsc }) ur arguments caller_domain
        callee stack).events =
      [Event.activationBuilt
          { receiver := br.or ur, superclass := bsc, scope := scope,
            caller_domain := some caller_domain },
        Event.arityError] ∧
    (Executable.exec host
        (.Native { method := nm, scope := scope, bound_receiver := br,
                   bound_superclass := bsc }) ur arguments caller_domain
        callee stack).stack = stack := by
  have harity : arguments.length > nm.signature.length
      ∧ nm.is_variadic = false := ⟨hgt, hvar⟩
  simp only [Executable.exec]
  simp [Activation.from_builtin, hfb, harity]

/-- Witness for the amended C5 at a concrete input: `f()` called with one
argument fails with the arity error, after having built exactly one
Activation and touched the ledger not at all. -/
theorem exec_native_arity_check_after_activation_witness :
    (Executable.exec sampleHost
        (.Native { method := noArgMethod, scope := [], bound_receiver := none,
                   bound_superclass := none }) none [.num 1] 0
        { id := 0 } []).ret =
      .error (arity_error_message "f" 1 0) ∧
    (Executable.exec sampleHost
        (.Native { method := noArgMethod, scope := [], bound_receiver := none,
                   bound_superclass := none }) none [.num 1] 0
        { id := 0 } []).events =
      [Event.activationBuilt
          { receiver := none, superclass := none, scope := [],
            caller_domain := some 0 },
        Event.arityError] ∧
    (Executable.exec sampleHost
        (.Native { method := noArgMethod, scope := [], bound_receiver := none,
                   bound_superclass := none }) none [.num 1] 0
        { id := 0 } []).stack = [] :=
  exec_native_arity_check_after_activation sampleHost noArgMethod [] none none
    none 0 { id := 0 } [] [.num 1] rfl (by decide) rfl

/-- Every Activation `exec` builds, and every direct routine invocation it
performs, carries the resolved receiver `self.bound_receiver.or ur`. -/
lemma exec_events_receiver_eq (host : Host) (self : Executable)
    (ur : Option Obj) (arguments : List Value) (caller_domain : Nat)
    (callee : Obj) (stack : CallStack) :
    (∀ act, Event.activationBuilt act ∈
        (Executable.exec host self ur arguments caller_domain callee
          stack).events →
      act.receiver = self.bound_receiver.or ur) ∧
    (∀ r v, Event.invoked r v ∈
        (Executable.exec host self ur arguments caller_domain callee
          stack).events →
      r = self.bound_receiver.or ur) := by
  cases self with
  | Native bm =>
      simp only [Executable.exec, Activation.from_builtin,
        Executable.bound_receiver]
      cases hoe : host.from_builtin_err (bm.bound_receiver.or ur)
          bm.bound_superclass bm.scope caller_domain with
      | some e => simp
      | none =>
          by_cases harity : arguments.length > bm.method.signature.length
              ∧ bm.method.is_variadic = false
          · simp [harity]
          · cases hres : host.resolve_parameters bm.method.name arguments
                bm.method.signature with
            | error e => simp [harity]
            | ok resolved =>
                simp [harity]
  | Action bm =>
      simp only [Executable.exec, Activation.from_method,
        Executable.bound_receiver]
      by_cases htr : bm.method.is_unchecked = true
          ∧ arguments.length > bm.method.signature.length
          ∧ bm.method.is_variadic = false
      · cases hoe : host.from_method_err bm.method bm.scope
            (bm.receiver.or ur) (arguments.take bm.method.signature.length)
            bm.bound_superclass callee with
        | some e => simp [htr, hoe]
        | none => simp [htr, hoe]
      · cases hoe : host.from_method_err bm.method bm.scope
            (bm.receiver.or ur) arguments bm.bound_superclass callee with
        | some e => simp [htr, hoe]
        | none => simp [htr, hoe]

/-- C4: For every `Executable` (either variant) with a bound receiver `R1`,
invoking `exec` with any caller-supplied unbound receiver `R2` resolves the
receiver to `R1`: `R1` (not `R2`) is the receiver placed in the new
Activation and passed to the invoked routine; only when the bound receiver
is absent is the caller-supplied receiver used. -/
theorem exec_receiver_precedence (host : Host) (self : Executable)
    (ur : Option Obj) (arguments : List Value) (caller_domain : Nat)
    (callee : Obj) (stack : CallStack) (act : Activation) (r : Option Obj)
    (v : List Value) :
    (∀ r1, self.bound_receiver = some r1 →
      (Event.activationBuilt act ∈
          (Executable.exec host self ur arguments caller_domain callee
            stack).events →
        act.receiver = some r1) ∧
      (Event.invoked r v ∈
          (Executable.exec host self ur arguments caller_domain callee
            stack).events →
        r = some r1)) ∧
    (self.bound_receiver = none →
      (Event.activationBuilt act ∈
          (Executable.exec host self ur arguments caller_domain callee
            stack).events →
        act.receiver = ur) ∧
      (Event.invoked r v ∈
          (Executable.exec host self ur arguments caller_domain callee
            stack).events →
        r = ur)) := by
  obtain ⟨hact, hinv⟩ := exec_events_receiver_eq host self ur arguments
    caller_domain callee stack
  constructor
  · intro r1 hb
    refine ⟨fun hm => ?_, fun hm => ?_⟩
    · rw [hact act hm, hb]; rfl
    · rw [hinv r v hm, hb]; rfl
  · intro hb
    refine ⟨fun hm => ?_, fun hm => ?_⟩
    · rw [hact act hm, hb]; rfl
    · rw [hinv r v hm, hb]; rfl

/-- Witness for C4: the `add` executable bound to object 1, invoked with
unbound receiver object 2, builds its Activation with receiver object 1 and
invokes the routine with receiver object 1. -/
theorem exec_receiver_precedence_witness :
    (Event.activationBuilt
        { receiver := some { id := 1 }, superclass := none, scope := [],
          caller_domain := some 0 } ∈
      (Executable.exec sampleHost boundAddExecutable (some { id := 2 })
        [.num 2, .num 3] 0 { id := 0 } []).events →
      ({ receiver := some { id := 1 }, superclass := none, scope := [],
         caller_domain := some 0 } : Activation).receiver =
        some { id := 1 }) ∧
    (Event.invoked (some { id := 1 }) [.num 2, .num 3] ∈
      (Executable.exec sampleHost boundAddExecutable (some { id := 2 })
        [.num 2, .num 3] 0 { id := 0 } []).events →
      (some { id := 1 } : Option Obj) = some { id := 1 }) :=
  (exec_receiver_precedence sampleHost boundAddExecutable (some { id := 2 })
    [.num 2, .num 3] 0 { id := 0 } []
    { receiver := some { id := 1 }, superclass := none, scope := [],
      caller_domain := some 0 }
    (some { id := 1 }) [.num 2, .num 3]).1 { id := 1 } rfl

/-- C8: `from_method` is pure data assembly: it produces the `Native`
variant for a native descriptor and the `Action` variant for a bytecode
descriptor, storing exactly the method, scope, receiver and superclass it
was given; and `bound_superclass` applied to any `from_method` result
returns the superclass that was stored (constructor/accessor round trip). -/
theorem from_method_bound_superclass_round_trip (nm : NativeMethod)
    (bm : BytecodeMethod) (m : Method) (scope : ScopeChain)
    (receiver : Option Obj) (superclass : Option ClassObject) :
    Executable.from_method (.Native nm) scope receiver superclass =
      .Native { method := nm, scope := scope, bound_receiver := receiver,
                bound_superclass := superclass } ∧
    Executable.from_method (.Bytecode bm) scope receiver superclass =
      .Action { method := bm, scope := scope, receiver := receiver,
                bound_superclass := superclass } ∧
    (Executable.from_method m scope receiver superclass).bound_superclass =
      superclass := by
  refine ⟨rfl, rfl, ?_⟩
  cases m <;> rfl

/-- C6: `full_name` returns `"<ClassQualifiedName>/foo()"` for a bytecode
executable whose method record identity-matches the instance-side method
trait `foo` of its bound superclass (the record not being the class
initializer and matching nothing on the class side);
`"<ClassQualifiedName>$cinit()"` when the record is identical to the class's
designated class initializer; `"<ClassQualifiedName>$/traitName()"` when it
identity-matches a class-side method trait, the class-side table being
searched before the instance-side one; and `"bar()"` for a native executable
named `bar` with no bound superclass.  Every branch appends `"()"`. -/
theorem full_name_resolution (cdA : ClassDef) (mA cbA : BytecodeMethod)
    (tA : Trait) (scA : ScopeChain) (rA : Option Obj)
    (cdB : ClassDef) (mB cbB : BytecodeMethod) (scB : ScopeChain)
    (rB : Option Obj)
    (cdC : ClassDef) (mC cbC : BytecodeMethod) (tC : Trait)
    (scC : ScopeChain) (rC : Option Obj)
    (nmD : NativeMethod) (scD : ScopeChain) (rD : Option Obj)
    (hA1 : cdA.class_init.into_bytecode = some cbA) (hA2 : cbA.id ≠ mA.id)
    (hA3 : NoMethodMatch mA cdA.class_traits)
    (hA4 : FirstMethodMatch mA cdA.instance_traits tA)
    (hB1 : cdB.class_init.into_bytecode = some cbB) (hB2 : cbB.id = mB.id)
    (hC1 : cdC.class_init.into_bytecode = some cbC) (hC2 : cbC.id ≠ mC.id)
    (hC3 : FirstMethodMatch mC cdC.class_traits tC) :
    Executable.full_name
        (.Action { method := mA, scope := scA, receiver := rA,
                   bound_superclass := some { inner_class_definition := cdA } }) =
      some (cdA.qualified_name ++ "/" ++ tA.name.local_name ++ "()") ∧
    Executable.full_name
        (.Action { method := mB, scope := scB, receiver := rB,
                   bound_superclass := some { inner_class_definition := cdB } }) =
      some (cdB.qualified_name ++ "$cinit" ++ "()") ∧
    Executable.full_name
        (.Action { method := mC, scope := scC, receiver := rC,
                   bound_superclass := some { inner_class_definition := cdC } }) =
      some (cdC.qualified_name ++ "$/" ++ tC.name.local_name ++ "()") ∧
    Executable.full_name
        (.Native { method := nmD, scope := scD, bound_receiver := rD,
                   bound_superclass := none }) =
      some (nmD.name ++ "()") := by
  refine ⟨?_, ?_, ?_, ?_⟩
  · simp only [Executable.full_name, Executable.bound_superclass]
    rw [hA1]
    simp [hA2, scan_method_traits_eq_of_noMatch "$/" mA cdA.class_traits hA3,
      scan_method_traits_eq_of_firstMatch "/" mA cdA.instance_traits tA hA4,
      String.append_assoc]
  · simp only [Executable.full_name, Executable.bound_superclass]
    rw [hB1]
    simp [hB2]
  · simp only [Executable.full_name, Executable.bound_superclass]
    rw [hC1]
    simp [hC2,
      scan_method_traits_eq_of_firstMatch "$/" mC cdC.class_traits tC hC3,
      String.append_assoc]
  · simp [Executable.full_name, Executable.bound_superclass]

/-- Witness for C6 at concrete classes: instance trait `foo`, the class
initializer, a class-side trait searched before the identical instance-side
trait, and an unbound native `add`. -/
theorem full_name_resolution_witness :
    Executable.full_name
        (.Action { method := methodFoo, scope := [], receiver := none,
                   bound_superclass :=
                     some { inner_class_definition := classFoo } }) =
      some "Example/foo()" ∧
    Executable.full_name
        (.Action { method := cinitMethod, scope := [], receiver := none,
                   bound_superclass :=
                     some { inner_class_definition := classEmpty } }) =
      some "Example$cinit()" ∧
    Executable.full_name
        (.Action { method := methodFoo, scope := [], receiver := none,
                   bound_superclass :=
                     some { inner_class_definition := classStatic } }) =
      some "Example$/foo()" ∧
    Executable.full_name
        (.Native { method := addMethod, scope := [], bound_receiver := none,
                   bound_superclass := none }) =
      some "add()" := by
  have h := full_name_resolution classFoo methodFoo cinitMethod traitFoo []
    none classEmpty cinitMethod cinitMethod [] none classStatic methodFoo
    cinitMethod traitFoo [] none addMethod [] none
    rfl (by decide)
    (by intro t ht; simp [classFoo] at ht)
    ⟨[], [], .Bytecode methodFoo, methodFoo, rfl,
      (by intro t ht; simp at ht), rfl, rfl, rfl⟩
    rfl rfl rfl (by decide)
    ⟨[], [], .Bytecode methodFoo, methodFoo, rfl,
      (by intro t ht; simp at ht), rfl, rfl, rfl⟩
  exact h

/-- C7 counterexample: a bytecode executable with a bound superclass whose
method record is not the class initializer and matches no trait in either
table resolves to just `"Example()"` — not to the synthetic
`MethodInfo-<id>` form the claim requires. -/
theorem full_name_no_match_counterexample :
    Executable.full_name
        (.Action { method := methodFoo, scope := [], receiver := none,
                   bound_superclass :=
                     some { inner_class_definition := classEmpty } }) =
      some "Example()" ∧
    ¬ (("MethodInfo" : String).toList <:+: ("Example()" : String).toList) := by
  exact ⟨rfl, by decide⟩

/-- C7 as amended: with a bound superclass, a non-initializer method record
matching no method trait in either table falls through with only the class
qualified name, yielding `"<ClassQualifiedName>()"`; the synthetic
`MethodInfo-<id>` name is produced exactly when there is no bound
superclass. -/
theorem full_name_fallthrough (cd : ClassDef) (m cb : BytecodeMethod)
    (sc : ScopeChain) (r : Option Obj)
    (h1 : cd.class_init.into_bytecode = some cb) (h2 : cb.id ≠ m.id)
    (h3 : NoMethodMatch m cd.class_traits)
    (h4 : NoMethodMatch m cd.instance_traits) :
    Executable.full_name
        (.Action { method := m, scope := sc, receiver := r,
                   bound_superclass := some { inner_class_definition := cd } }) =
      some (cd.qualified_name ++ "()") ∧
    Executable.full_name
        (.Action { method := m, scope := sc, receiver := r,
                   bound_superclass := none }) =
      some ("MethodInfo-" ++ toString m.abc_method ++ "()") := by
  constructor
  · simp only [Executable.full_name, Executable.bound_superclass]
    rw [h1]
    simp [h2, scan_method_traits_eq_of_noMatch "$/" m cd.class_traits h3,
      scan_method_traits_eq_of_noMatch "/" m cd.instance_traits h4]
  · simp [Executable.full_name, Executable.bound_superclass,
      String.append_assoc]

/-- Witness for the amended C7: the concrete empty-table class yields
`"Example()"`, and dropping the superclass yields `"MethodInfo-4()"`. -/
theorem full_name_fallthrough_witness :
    Executable.full_name
        (.Action { method := methodFoo, scope := [], receiver := none,
                   bound_superclass :=
                     some { inner_class_definition := classEmpty } }) =
      some ("Example" ++ "()") ∧
    Executable.full_name
        (.Action { method := methodFoo, scope := [], receiver := none,
                   bound_superclass := none }) =
      some ("MethodInfo-" ++ toString methodFoo.abc_method ++ "()") :=
  full_name_fallthrough classEmpty methodFoo cinitMethod [] none rfl
    (by decide) (by intro t ht; simp [classEmpty] at ht)
    (by intro t ht; simp [classEmpty] at ht)

/-- C9: `full_name` on a bytecode executable with a bound superclass is only
defined when the class's designated class initializer and every method trait
the resolver scans (class-side, then instance-side) carry bytecode method
records: a native class initializer, or a native method trait reached before
any identity match, makes the `into_bytecode().unwrap()` calls panic
(modelled as a `none` result); when the initializer and all scanned traits
are bytecode, `full_name` returns a name. -/
theorem full_name_requires_bytecode (cd : ClassDef) (m : BytecodeMethod)
    (sc : ScopeChain) (r : Option Obj) :
    (cd.class_init.into_bytecode = none →
      Executable.full_name
          (.Action { method := m, scope := sc, receiver := r,
                     bound_superclass :=
                       some { inner_class_definition := cd } }) = none) ∧
    (∀ cb pre t tm post,
      cd.class_init.into_bytecode = some cb → cb.id ≠ m.id →
      cd.class_traits = pre ++ t :: post → NoMethodMatch m pre →
      t.as_method = some tm → tm.into_bytecode = none →
      Executable.full_name
          (.Action { method := m, scope := sc, receiver := r,
                     bound_superclass :=
                       some { inner_class_definition := cd } }) = none) ∧
    (∀ cb pre t tm post,
      cd.class_init.into_bytecode = some cb → cb.id ≠ m.id →
      NoMethodMatch m cd.class_traits →
      cd.instance_traits = pre ++ t :: post → NoMethodMatch m pre →
      t.as_method = some tm → tm.into_bytecode = none →
      Executable.full_name
          (.Action { method := m, scope := sc, receiver := r,
                     bound_superclass :=
                       some { inner_class_definition := cd } }) = none) ∧
    (∀ cb,
      cd.class_init.into_bytecode = some cb →
      MethodTraitsBytecode cd.class_traits →
      MethodTraitsBytecode cd.instance_traits →
      (Executable.full_name
          (.Action { method := m, scope := sc, receiver := r,
                     bound_superclass :=
                       some { inner_class_definition := cd } })).isSome =
        true) := by
  refine ⟨?_, ?_, ?_, ?_⟩
  · intro h
    simp only [Executable.full_name, Executable.bound_superclass]
    rw [h]
  · intro cb pre t tm post h1 h2 h3 h4 h5 h6
    simp only [Executable.full_name, Executable.bound_superclass]
    rw [h1, h3]
    simp [h2, scan_method_traits_eq_none_of_native "$/" m pre post t tm h4
      h5 h6]
  · intro cb pre t tm post h1 h2 h3 h4 h5 h6 h7
    simp only [Executable.full_name, Executable.bound_superclass]
    rw [h1, h4]
    simp [h2, scan_method_traits_eq_of_noMatch "$/" m cd.class_traits h3,
      scan_method_traits_eq_none_of_native "/" m pre post t tm h5 h6 h7]
  · intro cb h1 hclass hinst
    simp only [Executable.full_name, Executable.bound_superclass]
    rw [h1]
    by_cases hid : cb.id = m.id
    · simp [hid]
    · obtain ⟨o, ho⟩ :=
        scan_method_traits_isSome_of_bytecode "$/" m cd.class_traits hclass
      cases o with
      | some s => simp [hid, ho]
      | none =>
          obtain ⟨o2, ho2⟩ :=
            scan_method_traits_isSome_of_bytecode "/" m cd.instance_traits
              hinst
          cases o2 with
          | some s => simp [hid, ho, ho2]
          | none => simp [hid, ho, ho2]

/-- Witness for C9: a native class initializer panics, a native class-side
method trait reached by the scan panics, and a class whose initializer and
traits are all bytecode resolves to a name. -/
theorem full_name_requires_bytecode_witness :
    Executable.full_name
        (.Action { method := methodFoo, scope := [], receiver := none,
                   bound_superclass :=
                     some { inner_class_definition := classNativeInit } }) =
      none ∧
    Executable.full_name
        (.Action { method := methodFoo, scope := [], receiver := none,
                   bound_superclass :=
                     some { inner_class_definition := classNativeTrait } }) =
      none ∧
    (Executable.full_name
        (.Action { method := methodFoo, scope := [], receiver := none,
                   bound_superclass :=
                     some { inner_class_definition := classFoo } })).isSome =
      true := by
  have h1 := (full_name_requires_bytecode classNativeInit methodFoo []
    none).1 rfl
  have h2 := (full_name_requires_bytecode classNativeTrait methodFoo []
    none).2.1 cinitMethod [] nativeTrait (.Native addMethod) [] rfl
    (by decide) rfl (by intro t ht; simp at ht) rfl rfl
  have h3 := (full_name_requires_bytecode classFoo methodFoo [] none).2.2.2
    cinitMethod rfl
    (by intro t ht; simp [classFoo] at ht)
    (by
      intro t ht tm hm
      simp [classFoo] at ht
      subst ht
      simp [traitFoo] at hm
      exact ⟨methodFoo, by rw [← hm]; rfl⟩)
  exact ⟨h1, h2, h3⟩

end RuffleAvm2
